import Mathlib

/-!
Verification development for the `rabellamy/server` repository: a shallow
embedding of the call-identifier parser, the RED instrumentation layer
(HTTP middleware and gRPC interceptors), the route construction, and the
lifecycle orchestrator's run/shutdown logic, with theorems settling the
specification claims.

Go strings are embedded as `List Char`; machine state touched by each
function is passed explicitly; fallible operations return `Except` or
`Option`.
-/

/-- Errors of `extractServiceMethod` (src/unnamed/part_007, lines 101-123).
`invalidFormat` covers both the missing-leading-separator check and the
`lastSlash <= 0` check; the other two match the dedicated messages. -/
inductive MethodErr where
  | invalidFormat
  | serviceMissing
  | methodMissing
deriving DecidableEq

/-- Index of the last occurrence of `c` in `s`, or `none`: the embedding of
Go `strings.LastIndex(s, "/")` (which returns -1 for no occurrence). -/
def lastIndexOf (c : Char) : List Char → Option Nat
  | [] => none
  | x :: xs =>
    match lastIndexOf c xs with
    | some i => some (i + 1)
    | none => if x = c then some 0 else none

/-- Embedding of `extractServiceMethod` (src/unnamed/part_007, lines 101-123):
requires a leading `/`; `lastSlash <= 0` (which with the prefix check means
`lastSlash = 0`, and `none` mirrors Go's -1) is rejected; then
`service = fullMethod[1:lastSlash]`, `method = fullMethod[lastSlash+1:]`,
both required non-empty. -/
def extractServiceMethod (fullMethod : List Char) :
    Except MethodErr (List Char × List Char) :=
  if fullMethod.head? ≠ some '/' then .error .invalidFormat
  else
    match lastIndexOf '/' fullMethod with
    | none => .error .invalidFormat
    | some 0 => .error .invalidFormat
    | some (k + 1) =>
      let service := (fullMethod.take (k + 1)).drop 1
      let method := fullMethod.drop (k + 2)
      if service = [] then .error .serviceMissing
      else if method = [] then .error .methodMissing
      else .ok (service, method)

theorem lastIndexOf_isSome_of_mem {c : Char} {s : List Char} (h : c ∈ s) :
    (lastIndexOf c s).isSome := by
  induction s with
  | nil => cases h
  | cons x xs ih =>
    rw [lastIndexOf]
    cases hx : lastIndexOf c xs with
    | some i => simp
    | none =>
      rcases List.mem_cons.mp h with h1 | h2
      · simp [h1]
      · have := ih h2
        rw [hx] at this
        simp at this

theorem lastIndexOf_get {c : Char} {s : List Char} {k : Nat}
    (h : lastIndexOf c s = some k) : s.get? k = some c := by
  induction s generalizing k with
  | nil => simp [lastIndexOf] at h
  | cons x xs ih =>
    rw [lastIndexOf] at h
    cases hx : lastIndexOf c xs with
    | some i =>
      rw [hx] at h
      cases h
      simpa using ih hx
    | none =>
      rw [hx] at h
      by_cases hxc : x = c
      · simp [hxc] at h
        subst h
        simp [hxc]
      · simp [hxc] at h

theorem lastIndexOf_none_not_mem {c : Char} {s : List Char}
    (h : lastIndexOf c s = none) : c ∉ s := by
  intro hmem
  have := lastIndexOf_isSome_of_mem hmem
  rw [h] at this
  simp at this

theorem lastIndexOf_not_mem_drop {c : Char} {s : List Char} {k : Nat}
    (h : lastIndexOf c s = some k) : c ∉ s.drop (k + 1) := by
  induction s generalizing k with
  | nil => simp [lastIndexOf] at h
  | cons x xs ih =>
    rw [lastIndexOf] at h
    cases hx : lastIndexOf c xs with
    | some i =>
      rw [hx] at h
      cases h
      simpa using ih hx
    | none =>
      rw [hx] at h
      by_cases hxc : x = c
      · simp [hxc] at h
        subst h
        simpa using lastIndexOf_none_not_mem hx
      · simp [hxc] at h

theorem drop_eq_cons_of_get {α : Type} {l : List α} {n : Nat} {a : α}
    (h : l.get? n = some a) : l.drop n = a :: l.drop (n + 1) := by
  induction l generalizing n with
  | nil => simp at h
  | cons x xs ih =>
    cases n with
    | zero =>
      simp at h
      simp [h]
    | succ n =>
      simpa using ih (by simpa using h)

/-- Claim C6 (confirmed): for every full method string, parsing succeeds iff
the string starts with the separator and the last separator splits it into a
non-empty service (everything strictly between the leading separator and the
last one) and a non-empty method (everything after); together with the
spec's five concrete examples. -/
theorem c6_extract_service_method_parse :
    (∀ s : List Char, (extractServiceMethod s).isOk = true ↔
      (s.head? = some '/' ∧ ∃ k, lastIndexOf '/' s = some k ∧
        (s.take k).drop 1 ≠ [] ∧ s.drop (k + 1) ≠ [])) ∧
    extractServiceMethod "/pkg.Service/Method".toList
      = .ok ("pkg.Service".toList, "Method".toList) ∧
    extractServiceMethod "/a/b/c".toList = .ok ("a/b".toList, "c".toList) ∧
    extractServiceMethod "/Method".toList = .error .invalidFormat ∧
    extractServiceMethod "//Method".toList = .error .serviceMissing ∧
    extractServiceMethod "/Service/".toList = .error .methodMissing := by
  refine ⟨?_, rfl, rfl, rfl, rfl, rfl⟩
  intro s
  by_cases hp : s.head? = some '/'
  · rw [extractServiceMethod]
    simp only [hp, ne_eq, not_true_eq_false, if_false]
    cases hsl : lastIndexOf '/' s with
    | none => simp [Except.isOk, Except.toBool]
    | some k =>
      cases k with
      | zero => simp [Except.isOk, Except.toBool]
      | succ k =>
        simp only [Option.some.injEq]
        constructor
        · intro hok
          by_cases hs : (s.take (k + 1)).drop 1 = []
          · rw [if_pos hs] at hok
            simp [Except.isOk, Except.toBool] at hok
          · rw [if_neg hs] at hok
            by_cases hm : s.drop (k + 2) = []
            · rw [if_pos hm] at hok
              simp [Except.isOk, Except.toBool] at hok
            · refine ⟨trivial, k + 1, rfl, hs, ?_⟩
              have e2 : k + 1 + 1 = k + 2 := rfl
              rw [e2]
              exact hm
        · rintro ⟨-, k', hk', hsv, hmth⟩
          obtain rfl : k' = k + 1 := hk'.symm
          have e2 : k + 1 + 1 = k + 2 := rfl
          rw [e2] at hmth
          rw [if_neg hsv, if_neg hmth]
          rfl
  · rw [extractServiceMethod]
    simp [hp, Except.isOk, Except.toBool]

/-- Claim C10 (confirmed): whenever `extractServiceMethod` succeeds with
`(service, method)`, the method contains no separator and
`"/" ++ service ++ "/" ++ method` reassembles the original input. -/
theorem c10_parse_round_trip (s sv m : List Char)
    (h : extractServiceMethod s = .ok (sv, m)) :
    '/' ∉ m ∧ '/' :: sv ++ '/' :: m = s := by
  by_cases hp : s.head? = some '/'
  · obtain ⟨t, rfl⟩ : ∃ t, s = '/' :: t := by
      cases s with
      | nil => simp at hp
      | cons x xs =>
        simp at hp
        exact ⟨xs, by rw [hp]⟩
    rw [extractServiceMethod] at h
    simp only [hp, ne_eq, not_true_eq_false, if_false] at h
    cases hsl : lastIndexOf '/' ('/' :: t) with
    | none => rw [hsl] at h; simp at h
    | some k =>
      rw [hsl] at h
      cases k with
      | zero => simp at h
      | succ k =>
        have ht : lastIndexOf '/' t = some k := by
          rw [lastIndexOf] at hsl
          cases hx : lastIndexOf '/' t with
          | some i =>
            rw [hx] at hsl
            have hik : i = k := by
              have := Option.some.inj hsl
              omega
            exact congrArg some hik
          | none =>
            rw [hx] at hsl
            simp at hsl
        simp only at h
        by_cases hsvc : (('/' :: t).take (k + 1)).drop 1 = []
        · rw [if_pos hsvc] at h; simp at h
        · rw [if_neg hsvc] at h
          by_cases hmth : ('/' :: t).drop (k + 2) = []
          · rw [if_pos hmth] at h; simp at h
          · rw [if_neg hmth] at h
            have hpair := Except.ok.inj h
            have hsv : sv = t.take k := by
              have h1 := congrArg Prod.fst hpair
              simpa using h1.symm
            have hm2 : m = t.drop (k + 1) := by
              have h2 := congrArg Prod.snd hpair
              simpa using h2.symm
            subst hsv
            subst hm2
            constructor
            · exact lastIndexOf_not_mem_drop ht
            · have hget : t.get? k = some '/' := lastIndexOf_get ht
              have hdrop : t.drop k = '/' :: t.drop (k + 1) :=
                drop_eq_cons_of_get hget
              have : t.take k ++ t.drop k = t := List.take_append_drop k t
              rw [hdrop] at this
              simpa using this
  · rw [extractServiceMethod] at h
    simp [hp] at h

theorem c10_witness :
    '/' ∉ "C".toList ∧ '/' :: "a.B".toList ++ '/' :: "C".toList
      = "/a.B/C".toList :=
  c10_parse_round_trip "/a.B/C".toList "a.B".toList "C".toList rfl

/-- Counter state of one RED metric set: cumulative request-counter value,
error-counter value, and number of duration observations (all summed over
label values, which the counting claims do not distinguish). -/
structure REDCounts where
  requests : Nat
  errors : Nat
  durationObs : Nat
deriving DecidableEq

/-- Which duration instrument the promstrap RED strategy populated
(`red.Duration.Histogram` / `red.Duration.Summary` non-nil). -/
structure REDDuration where
  hasHistogram : Bool
  hasSummary : Bool
deriving DecidableEq

/-- Duration observations one call makes: the source observes into the
histogram if non-nil and into the summary if non-nil (part_002 lines 59-64,
part_007 lines 37-42 and 83-88). -/
def durObsCount (d : REDDuration) : Nat :=
  (if d.hasHistogram then 1 else 0) + (if d.hasSummary then 1 else 0)

/-- `responseWriter` (src/unnamed/part_002, lines 37-40): wraps the
underlying writer; `ServeHTTP` initialises `statusCode` to 200. -/
structure ResponseWriterState where
  statusCode : Nat
deriving DecidableEq

/-- `responseWriter.WriteHeader` (part_002 lines 73-76): stores `code` in the
captured field — overwriting any previous value — and forwards the call. -/
def writeHeader (rw : ResponseWriterState) (code : Nat) : ResponseWriterState :=
  { rw with statusCode := code }

/-- The wrapped handler, abstracted by the sequence of status codes it passes
to `WriteHeader` during the call, applied to the capturing wrapper. -/
def runHandler (writes : List Nat) (rw : ResponseWriterState) :
    ResponseWriterState :=
  writes.foldl writeHeader rw

/-- `REDMiddleware.ServeHTTP` (part_002 lines 43-70): increment the request
counter, run the handler through the capturing wrapper (initialised to 200),
observe the duration, and increment the error counter when the captured
status is at least 400. Returns the final counts and the captured status. -/
def serveHTTP (d : REDDuration) (writes : List Nat) (c : REDCounts) :
    REDCounts × Nat :=
  let c1 : REDCounts := { c with requests := c.requests + 1 }
  let rw := runHandler writes { statusCode := 200 }
  let c2 : REDCounts := { c1 with durationObs := c1.durationObs + durObsCount d }
  let c3 : REDCounts :=
    if 400 ≤ rw.statusCode then { c2 with errors := c2.errors + 1 } else c2
  (c3, rw.statusCode)

/-- `UnaryREDInterceptor` (part_007 lines 15-52): parse the call identifier —
on failure return the parse error with nothing recorded — else increment the
request counter, invoke the handler (summarised by whether it returned a
non-nil error), observe the duration, and increment the error counter once
when the handler failed. Returns the final counts and the call outcome. -/
def unaryREDInterceptor (d : REDDuration) (fullMethod : List Char)
    (handlerFails : Bool) (c : REDCounts) : REDCounts × Except MethodErr Bool :=
  match extractServiceMethod fullMethod with
  | .error e => (c, .error e)
  | .ok _ =>
    let c1 : REDCounts := { c with requests := c.requests + 1 }
    let c2 : REDCounts := { c1 with durationObs := c1.durationObs + durObsCount d }
    let c3 : REDCounts :=
      if handlerFails then { c2 with errors := c2.errors + 1 } else c2
    (c3, .ok handlerFails)

/-- `StreamREDInterceptor` (part_007 lines 57-98): like the unary one, except
the source contains the error-recording block twice — once right after the
handler returns (lines 76-79) and once after the duration observation
(lines 91-94) — so a failed handler increments the error counter twice. -/
def streamREDInterceptor (d : REDDuration) (fullMethod : List Char)
    (handlerFails : Bool) (c : REDCounts) : REDCounts × Except MethodErr Bool :=
  match extractServiceMethod fullMethod with
  | .error e => (c, .error e)
  | .ok _ =>
    let c1 : REDCounts := { c with requests := c.requests + 1 }
    let c2 : REDCounts :=
      if handlerFails then { c1 with errors := c1.errors + 1 } else c1
    let c3 : REDCounts := { c2 with durationObs := c2.durationObs + durObsCount d }
    let c4 : REDCounts :=
      if handlerFails then { c3 with errors := c3.errors + 1 } else c3
    (c4, .ok handlerFails)

theorem getLast?_cons_ne_none {α : Type} (x : α) (l : List α) :
    (x :: l).getLast? ≠ none := by
  induction l generalizing x with
  | nil => simp [List.getLast?]
  | cons y ys ih =>
    rw [List.getLast?_cons_cons]
    exact ih y

theorem runHandler_statusCode (writes : List Nat) :
    ∀ rw : ResponseWriterState,
      (runHandler writes rw).statusCode = writes.getLast?.getD rw.statusCode := by
  induction writes with
  | nil => intro rw; rfl
  | cons w ws ih =>
    intro rw
    have h1 : runHandler (w :: ws) rw = runHandler ws (writeHeader rw w) := rfl
    rw [h1, ih]
    cases ws with
    | nil => rfl
    | cons a as =>
      rw [List.getLast?_cons_cons (b := a)]
      cases hg : (a :: as).getLast? with
      | some x => rfl
      | none => exact absurd hg (getLast?_cons_ne_none a as)

theorem mem_of_getLast_some {α : Type} {l : List α} {a : α}
    (h : l.getLast? = some a) : a ∈ l := by
  induction l with
  | nil => simp at h
  | cons x xs ih =>
    cases xs with
    | nil =>
      simp [List.getLast?] at h
      simp [h]
    | cons y ys =>
      rw [List.getLast?_cons_cons] at h
      exact List.mem_cons_of_mem x (ih h)

/-- Claim C4 (code bug, evaluation at the failing input): a valid streaming
call whose handler returns a non-nil error gets exactly one request
increment and one duration observation, but TWO error increments — the
source's duplicated error-recording block — contradicting the exactly-once
attribution the spec (and the interceptor's own doc comment) promise. -/
theorem c4_stream_double_error_eval :
    ((streamREDInterceptor ⟨true, false⟩
        "/helloworld.Greeter/SayHelloStream".toList true ⟨0, 0, 0⟩).fst).errors
        = 2 ∧
    ((streamREDInterceptor ⟨true, false⟩
        "/helloworld.Greeter/SayHelloStream".toList true ⟨0, 0, 0⟩).fst).requests
        = 1 ∧
    ((streamREDInterceptor ⟨true, false⟩
        "/helloworld.Greeter/SayHelloStream".toList true ⟨0, 0, 0⟩).fst).durationObs
        = 1 ∧
    ((unaryREDInterceptor ⟨true, false⟩
        "/helloworld.Greeter/SayHello".toList true ⟨0, 0, 0⟩).fst).errors
        = 1 := by
  refine ⟨rfl, rfl, rfl, rfl⟩

/-- Claim C5 (counterexample): a handler that writes status 200 and then 500
refutes first-write-wins — the wrapper's captured status is the last write
(500), not the first-committed 200, and the call is classified as an error
even though the committed status was 200. -/
theorem c5_first_write_wins_cex :
    (serveHTTP ⟨true, false⟩ [200, 500] ⟨0, 0, 0⟩).snd ≠ 200 ∧
    (serveHTTP ⟨true, false⟩ [200, 500] ⟨0, 0, 0⟩).snd = 500 ∧
    ((serveHTTP ⟨true, false⟩ [200, 500] ⟨0, 0, 0⟩).fst).errors = 1 := by
  refine ⟨by decide, rfl, rfl⟩

/-- Claim C5 (corrected): the response wrapper captures the LAST status code
the handler passes to WriteHeader — every call overwrites the captured
value — defaulting to 200 when the handler never writes, and the error
classification uses that last-written status. -/
theorem c5_last_write_wins_amended :
    (∀ (rw : ResponseWriterState) (code : Nat),
      (writeHeader rw code).statusCode = code) ∧
    (∀ (d : REDDuration) (writes : List Nat) (c : REDCounts),
      (serveHTTP d writes c).snd = writes.getLast?.getD 200 ∧
      ((serveHTTP d writes c).fst).errors
        = c.errors + (if 400 ≤ writes.getLast?.getD 200 then 1 else 0)) := by
  refine ⟨fun rw code => rfl, fun d writes c => ?_⟩
  have hs := runHandler_statusCode writes { statusCode := 200 }
  constructor
  · simp only [serveHTTP]
    exact hs
  · by_cases h4 : 400 ≤ writes.getLast?.getD 200
    · simp [serveHTTP, hs, h4]
    · simp [serveHTTP, hs, h4]

/-- Claim C7 (confirmed): for every malformed full-method string, both RPC
interceptors fail the call with the invalid-call-identifier error and leave
every metric count unchanged. -/
theorem c7_malformed_rejected (d : REDDuration) (s : List Char) (hf : Bool)
    (c : REDCounts) (e : MethodErr)
    (h : extractServiceMethod s = .error e) :
    unaryREDInterceptor d s hf c = (c, .error e) ∧
    streamREDInterceptor d s hf c = (c, .error e) := by
  constructor
  · simp [unaryREDInterceptor, h]
  · simp [streamREDInterceptor, h]

theorem c7_witness :
    unaryREDInterceptor ⟨true, false⟩ "/Method".toList false ⟨0, 0, 0⟩
        = (⟨0, 0, 0⟩, .error .invalidFormat) ∧
    streamREDInterceptor ⟨true, false⟩ "/Method".toList false ⟨0, 0, 0⟩
        = (⟨0, 0, 0⟩, .error .invalidFormat) :=
  c7_malformed_rejected ⟨true, false⟩ "/Method".toList false ⟨0, 0, 0⟩
    .invalidFormat rfl

/-- Claim C9 (confirmed): when the handler never calls WriteHeader the
middleware treats the status as 200 and does not increment the error
counter; an error increment can only come from an explicit status write of
400 or above. -/
theorem c9_implicit_status_200 :
    (∀ (d : REDDuration) (c : REDCounts),
      (serveHTTP d [] c).snd = 200 ∧
      ((serveHTTP d [] c).fst).errors = c.errors) ∧
    (∀ (d : REDDuration) (c : REDCounts) (writes : List Nat),
      c.errors < ((serveHTTP d writes c).fst).errors →
      ∃ w ∈ writes, 400 ≤ w) := by
  constructor
  · intro d c
    exact ⟨rfl, rfl⟩
  · intro d c writes hlt
    have hs := runHandler_statusCode writes { statusCode := 200 }
    by_cases h4 : 400 ≤ writes.getLast?.getD 200
    · cases hg : writes.getLast? with
      | none =>
        rw [hg] at h4
        simp at h4
      | some w =>
        refine ⟨w, mem_of_getLast_some hg, ?_⟩
        rw [hg] at h4
        exact h4
    · exfalso
      have : ((serveHTTP d writes c).fst).errors = c.errors := by
        simp [serveHTTP, hs, h4]
      omega

theorem c9_witness : ∃ w ∈ [500], 400 ≤ w :=
  c9_implicit_status_200.2 ⟨true, false⟩ ⟨0, 0, 0⟩ [500] (by decide)

/-- Observable actions of a shutdown sequence, in execution order. -/
inductive StopEvent where
  | gracefulStop (name : String)
  | forceStop (name : String)
  | healthNotServing
  | grpcGracefulStopBegin
  | grpcGracefulStopDone
deriving DecidableEq

/-- `http.Server.Shutdown(ctx)` at the abstraction the claims need: it
closes the listeners and, when no connection is in flight, returns nil
immediately WITHOUT consulting the context; with work in flight it returns
the context's error if the context is done before draining completes
(`ctxDone`), nil once drained otherwise. `some ()` is a non-nil return. -/
def httpShutdown (ctxDone : Bool) (inflight : Nat) : Option Unit :=
  if inflight = 0 then none
  else if ctxDone then some () else none

/-- The `for _, srv := range servers` loop of the HTTP variant's
`shutdownServers` (src/rest/server.go lines 123-130): each server's
`Shutdown(ctx)` is attempted in order; on a non-nil error that server is
`Close()`d and the loop returns the failure wrapped with the server's
name. Result: the trace of stop events and the failed server's name, if
any. Each server is its in-flight request count at shutdown entry. -/
def stopLoop (ctxDone : Bool) :
    List (String × Nat) → List StopEvent × Option String
  | [] => ([], none)
  | (name, inflight) :: rest =>
    match httpShutdown ctxDone inflight with
    | some _ => ([.gracefulStop name, .forceStop name], some name)
    | none =>
      let r := stopLoop ctxDone rest
      (.gracefulStop name :: r.fst, r.snd)

/-- `(*httpServer).shutdownServers` (src/rest/server.go lines 107-132): the
servers slice is `{"main", ...}, {"metrics", ...}` in that order. -/
def restShutdownServers (ctxDone : Bool) (mainInflight metricsInflight : Nat) :
    List StopEvent × Option String :=
  stopLoop ctxDone [("main", mainInflight), ("metrics", metricsInflight)]

/-- `(*Server).shutdownServers` (src/grpc/server.go lines 140-180): flip
health to NOT_SERVING, start `grpcServer.GracefulStop()` on its own
goroutine, shut the metrics server down (on error: close it and return its
wrapped failure, leaving the gRPC stop neither awaited nor forced), then
race the gRPC drain against the context: `grpcDrains` says the drain won;
if the context wins the gRPC server is force-stopped and the timeout
failure returned. -/
def grpcShutdownServers (ctxDone : Bool) (metricsInflight : Nat)
    (grpcDrains : Bool) : List StopEvent × Option String :=
  let pre : List StopEvent :=
    [.healthNotServing, .grpcGracefulStopBegin, .gracefulStop "metrics"]
  match httpShutdown ctxDone metricsInflight with
  | some _ => (pre ++ [.forceStop "metrics"], some "metrics")
  | none =>
    if grpcDrains then (pre ++ [.grpcGracefulStopDone], none)
    else (pre ++ [.forceStop "grpc"], some "grpc")

/-- The context handed to the shutdown sequence by `run`'s select. -/
inductive ShutdownScope where
  | parentAsIs
  | freshTimeout (t : Nat)
  | parentTimeout (t : Nat)
deriving DecidableEq

/-- Which of `run`'s three select cases fired first. -/
inductive RunTrigger where
  | ctxDone
  | serverFault
  | osSignal
deriving DecidableEq

/-- The HTTP variant's select (src/rest/server.go lines 94-104): on parent
cancellation, `shutdownServers(s.ctx, nil)` — the cancelled parent passed
as-is; on a server error no shutdown at all (the wrapped error is
returned, `none` here); on an OS signal, the parent narrowed by
`WithTimeout` to the configured shutdown timeout. -/
def restRunScope (shutdownTimeout : Nat) : RunTrigger → Option ShutdownScope
  | .ctxDone => some .parentAsIs
  | .serverFault => none
  | .osSignal => some (.parentTimeout shutdownTimeout)

/-- The RPC variant's select (src/grpc/server.go lines 125-137): on parent
cancellation, a fresh `context.WithTimeout(context.Background(), timeout)`
decoupled from the cancelled parent; the other cases as in the HTTP
variant. -/
def grpcRunScope (shutdownTimeout : Nat) : RunTrigger → Option ShutdownScope
  | .ctxDone => some (.freshTimeout shutdownTimeout)
  | .serverFault => none
  | .osSignal => some (.parentTimeout shutdownTimeout)

/-- Whether the scope handed to the shutdown sequence is done before the
listeners drain: `parentCancelled` holds exactly when the trigger was the
parent context's cancellation, and `deadlineFires` abstracts a
`WithTimeout` deadline elapsing before draining completes. -/
def scopeDone (parentCancelled deadlineFires : Bool) : ShutdownScope → Bool
  | .parentAsIs => parentCancelled
  | .freshTimeout _ => deadlineFires
  | .parentTimeout _ => parentCancelled || deadlineFires

/-- Did this trigger leave the parent context cancelled? -/
def parentCancelledFor : RunTrigger → Bool
  | .ctxDone => true
  | .serverFault => false
  | .osSignal => false

/-- `(*httpServer).run` (src/rest/server.go lines 79-105), end to end:
resolve the select, derive the shutdown scope, run the shutdown sequence,
and surface either the wrapped server fault or the first wrapped
graceful-stop failure. -/
def restRun (t : Nat) (trigger : RunTrigger) (deadlineFires : Bool)
    (mainInflight metricsInflight : Nat) : Except String Unit :=
  match restRunScope t trigger with
  | none => .error "server error"
  | some scope =>
    match (restShutdownServers
        (scopeDone (parentCancelledFor trigger) deadlineFires scope)
        mainInflight metricsInflight).snd with
    | some name => .error (name ++ " server could not stopped gracefully")
    | none => .ok ()

/-- `(*Server).run` (src/grpc/server.go lines 101-138), end to end. -/
def grpcRun (t : Nat) (trigger : RunTrigger) (deadlineFires : Bool)
    (metricsInflight : Nat) (grpcDrains : Bool) : Except String Unit :=
  match grpcRunScope t trigger with
  | none => .error "server error"
  | some scope =>
    match (grpcShutdownServers
        (scopeDone (parentCancelledFor trigger) deadlineFires scope)
        metricsInflight grpcDrains).snd with
    | some name =>
      if name = "grpc" then .error "grpc server shutdown timed out"
      else .error (name ++ " server could not stop gracefully")
    | none => .ok ()

theorem restShutdownServers_eq (d : Bool) (m k : Nat) :
    restShutdownServers d m k =
      match httpShutdown d m with
      | some _ => ([.gracefulStop "main", .forceStop "main"], some "main")
      | none =>
        match httpShutdown d k with
        | some _ => ([.gracefulStop "main", .gracefulStop "metrics",
            .forceStop "metrics"], some "metrics")
        | none => ([.gracefulStop "main", .gracefulStop "metrics"], none) := by
  cases hm : httpShutdown d m <;> cases hk : httpShutdown d k <;>
    simp [restShutdownServers, stopLoop, hm, hk]

theorem restShutdownServers_fail_main {d : Bool} {m : Nat} (k : Nat)
    (h : httpShutdown d m = some ()) :
    restShutdownServers d m k
      = ([.gracefulStop "main", .forceStop "main"], some "main") := by
  simp [restShutdownServers, stopLoop, h]

theorem restShutdownServers_fail_metrics {d : Bool} {m k : Nat}
    (h1 : httpShutdown d m = none) (h2 : httpShutdown d k = some ()) :
    restShutdownServers d m k
      = ([.gracefulStop "main", .gracefulStop "metrics",
          .forceStop "metrics"], some "metrics") := by
  simp [restShutdownServers, stopLoop, h1, h2]

theorem restShutdownServers_ok {d : Bool} {m k : Nat}
    (h1 : httpShutdown d m = none) (h2 : httpShutdown d k = none) :
    restShutdownServers d m k
      = ([.gracefulStop "main", .gracefulStop "metrics"], none) := by
  simp [restShutdownServers, stopLoop, h1, h2]

theorem grpcShutdownServers_fail_metrics {d : Bool} {k : Nat} (g : Bool)
    (h : httpShutdown d k = some ()) :
    grpcShutdownServers d k g
      = ([.healthNotServing, .grpcGracefulStopBegin, .gracefulStop "metrics",
          .forceStop "metrics"], some "metrics") := by
  simp [grpcShutdownServers, h]

theorem grpcShutdownServers_drained {d : Bool} {k : Nat}
    (h : httpShutdown d k = none) :
    grpcShutdownServers d k true
      = ([.healthNotServing, .grpcGracefulStopBegin, .gracefulStop "metrics",
          .grpcGracefulStopDone], none) := by
  simp [grpcShutdownServers, h]

theorem grpcShutdownServers_timeout {d : Bool} {k : Nat}
    (h : httpShutdown d k = none) :
    grpcShutdownServers d k false
      = ([.healthNotServing, .grpcGracefulStopBegin, .gracefulStop "metrics",
          .forceStop "grpc"], some "grpc") := by
  simp [grpcShutdownServers, h]

/-- Claim C1 (counterexample): in the HTTP variant, shutdown triggered by
external context cancellation runs under the already-cancelled parent
context itself — no fresh deadline-bounded scope of any size is created. -/
theorem c1_http_scope_not_fresh_cex :
    restRunScope 20 .ctxDone = some .parentAsIs ∧
    ¬ ∃ u, restRunScope 20 .ctxDone = some (.freshTimeout u) := by
  refine ⟨rfl, ?_⟩
  rintro ⟨u, hu⟩
  simp [restRunScope] at hu

/-- Claim C1 (corrected): on external context cancellation the RPC variant
creates a fresh scope sized to the configured shutdown timeout and
decoupled from the cancelled parent, but the HTTP variant passes the
cancelled parent unchanged; still, in both variants, cancelling the
external context with no work in flight makes run return with no error,
because quiescent graceful stops succeed without consulting the scope. -/
theorem c1_shutdown_scope_amended :
    (∀ t, grpcRunScope t .ctxDone = some (.freshTimeout t)) ∧
    (∀ t, restRunScope t .ctxDone = some .parentAsIs) ∧
    (∀ t, restRun t .ctxDone false 0 0 = .ok ()) ∧
    (∀ t, grpcRun t .ctxDone false 0 true = .ok ()) :=
  ⟨fun _ => rfl, fun _ => rfl, fun _ => rfl, fun _ => rfl⟩

/-- Claim C2 (counterexample): with the shutdown context already done and
one request still in flight on the main listener, the main graceful stop
fails and the metrics listener's graceful stop is never attempted —
refuting "every listener's graceful stop is attempted even when an earlier
one has failed". -/
theorem c2_first_failure_stops_sequence_cex :
    (restShutdownServers true 1 0).snd = some "main" ∧
    StopEvent.gracefulStop "metrics" ∉ (restShutdownServers true 1 0).fst := by
  refine ⟨rfl, by decide⟩

/-- Claim C2 (corrected): listeners are stopped sequentially only until the
first graceful-stop failure: that listener is force-stopped and the
sequence returns immediately with that first failure wrapped with the
listener's name; listeners after it are not attempted. -/
theorem c2_shutdown_first_failure_amended :
    (∀ (d : Bool) (m k : Nat), httpShutdown d m = some () →
      restShutdownServers d m k
        = ([.gracefulStop "main", .forceStop "main"], some "main")) ∧
    (∀ (d : Bool) (m k : Nat), httpShutdown d m = none →
      httpShutdown d k = some () →
      restShutdownServers d m k
        = ([.gracefulStop "main", .gracefulStop "metrics",
            .forceStop "metrics"], some "metrics")) ∧
    (∀ (d : Bool) (m k : Nat), httpShutdown d m = none →
      httpShutdown d k = none →
      restShutdownServers d m k
        = ([.gracefulStop "main", .gracefulStop "metrics"], none)) ∧
    (∀ (d : Bool) (k : Nat) (g : Bool), httpShutdown d k = some () →
      grpcShutdownServers d k g
        = ([.healthNotServing, .grpcGracefulStopBegin,
            .gracefulStop "metrics", .forceStop "metrics"],
           some "metrics")) :=
  ⟨fun _ _ k h => restShutdownServers_fail_main k h,
   fun _ _ _ h1 h2 => restShutdownServers_fail_metrics h1 h2,
   fun _ _ _ h1 h2 => restShutdownServers_ok h1 h2,
   fun _ _ g h => grpcShutdownServers_fail_metrics g h⟩

theorem c2_amended_witness :
    restShutdownServers true 1 0
      = ([.gracefulStop "main", .forceStop "main"], some "main") :=
  c2_shutdown_first_failure_amended.1 true 1 0 rfl

/-- Claim C3 (counterexample): in a clean shutdown of the HTTP variant the
FIRST stop event is the main listener's graceful stop, not the metrics
listener's — refuting the claimed metrics-then-main order. -/
theorem c3_http_order_cex :
    (restShutdownServers false 0 0).fst.head?
      = some (.gracefulStop "main") ∧
    (restShutdownServers false 0 0).fst.head?
      ≠ some (.gracefulStop "metrics") := by
  refine ⟨rfl, by decide⟩

/-- Claim C3 (corrected): the fixed sequential order is main-then-metrics
for the HTTP variant (the main listener's stop is always the first event,
and any metrics stop occurs strictly after any main stop); for the RPC
variant the health flip comes first, then the gRPC graceful stop is
initiated, then the metrics listener is stopped, and the gRPC stop is only
awaited or forced after that. -/
theorem c3_shutdown_order_amended :
    (∀ (d : Bool) (m k : Nat),
      (restShutdownServers d m k).fst.head? = some (.gracefulStop "main")) ∧
    (∀ (d : Bool) (m k : Nat) (i j : Nat),
      (restShutdownServers d m k).fst.get? i
          = some (.gracefulStop "metrics") →
      (restShutdownServers d m k).fst.get? j
          = some (.gracefulStop "main") →
      j < i) ∧
    (∀ (d : Bool) (k : Nat) (g : Bool),
      (grpcShutdownServers d k g).fst.take 3
        = [.healthNotServing, .grpcGracefulStopBegin,
           .gracefulStop "metrics"]) := by
  refine ⟨?_, ?_, ?_⟩
  · intro d m k
    cases hm : httpShutdown d m with
    | some u =>
      cases u
      rw [restShutdownServers_fail_main k hm]
      rfl
    | none =>
      cases hk : httpShutdown d k with
      | some u =>
        cases u
        rw [restShutdownServers_fail_metrics hm hk]
        rfl
      | none =>
        rw [restShutdownServers_ok hm hk]
        rfl
  · intro d m k i j hi hj
    cases hm : httpShutdown d m with
    | some u =>
      cases u
      rw [restShutdownServers_fail_main k hm] at hi
      rcases i with _ | _ | i
      · exact absurd hi (by decide)
      · exact absurd hi (by decide)
      · simp at hi
    | none =>
      cases hk : httpShutdown d k with
      | some u =>
        cases u
        rw [restShutdownServers_fail_metrics hm hk] at hi hj
        rcases j with _ | _ | j
        · rcases i with _ | _ | i
          · exact absurd hi (by decide)
          · decide
          · rcases i with _ | i
            · exact absurd hi (by decide)
            · simp at hi
        · exact absurd hj (by decide)
        · rcases j with _ | j
          · exact absurd hj (by decide)
          · simp at hj
      | none =>
        rw [restShutdownServers_ok hm hk] at hi hj
        rcases j with _ | _ | j
        · rcases i with _ | _ | i
          · exact absurd hi (by decide)
          · decide
          · simp at hi
        · exact absurd hj (by decide)
        · simp at hj
  · intro d k g
    cases hk : httpShutdown d k with
    | some u =>
      cases u
      rw [grpcShutdownServers_fail_metrics g hk]
      rfl
    | none =>
      cases g with
      | true =>
        rw [grpcShutdownServers_drained hk]
        rfl
      | false =>
        rw [grpcShutdownServers_timeout hk]
        rfl

theorem c3_amended_witness : (0 : Nat) < 1 :=
  c3_shutdown_order_amended.2.1 false 0 0 1 0 (by decide) (by decide)

/-- A registered handler: one of the caller's (identified abstractly) or
the default health handler that `CreateRoutes` installs. -/
inductive RouteHandler where
  | user (id : Nat)
  | defaultHealth
deriving DecidableEq

/-- `net/http.ServeMux.Handle` at its documented interface: registering a
pattern that is already registered panics — modelled as `none`; otherwise
the pattern/handler pair is added. -/
def muxHandleFunc (mux : List (String × RouteHandler)) (pat : String)
    (hd : RouteHandler) : Option (List (String × RouteHandler)) :=
  if pat ∈ mux.map Prod.fst then none else some (mux ++ [(pat, hd)])

/-- The `for path, route := range routes` loop of `CreateRoutes`
(src/rest/server.go lines 28-30), registering each caller route in
iteration order; `none` (a panic) is absorbing. -/
def registerAll (routes : List (String × RouteHandler))
    (acc : Option (List (String × RouteHandler))) :
    Option (List (String × RouteHandler)) :=
  routes.foldl (fun a pr => a.bind (fun mx => muxHandleFunc mx pr.1 pr.2)) acc

/-- `CreateRoutes` (src/rest/server.go lines 25-39): register every caller
route, then register the default `/health` handler last. -/
def createRoutes (routes : List (String × RouteHandler)) :
    Option (List (String × RouteHandler)) :=
  (registerAll routes (some [])).bind
    (fun mx => muxHandleFunc mx "/health" .defaultHealth)

/-- The default health handler (src/rest/server.go lines 32-34) writes the
body `"Status: 200"` via Fprintf and never calls WriteHeader, so the
committed status is the implicit 200; modelled by its (empty) sequence of
WriteHeader calls. -/
def healthHandlerWrites : List Nat := []

theorem registerAll_none (routes : List (String × RouteHandler)) :
    registerAll routes none = none := by
  induction routes with
  | nil => rfl
  | cons pr rest ih =>
    have hstep : registerAll (pr :: rest) none = registerAll rest none := rfl
    rw [hstep, ih]

theorem registerAll_ok :
    ∀ (routes : List (String × RouteHandler))
      (mx : List (String × RouteHandler)),
      (∀ p ∈ routes.map Prod.fst, p ∉ mx.map Prod.fst) →
      (routes.map Prod.fst).Nodup →
      registerAll routes (some mx) = some (mx ++ routes) := by
  intro routes
  induction routes with
  | nil =>
    intro mx _ _
    simp [registerAll]
  | cons pr rest ih =>
    intro mx hdisj hnd
    obtain ⟨p1, h1⟩ := pr
    have hp1 : p1 ∉ mx.map Prod.fst := hdisj p1 (by simp)
    have hstep : muxHandleFunc mx p1 h1 = some (mx ++ [(p1, h1)]) := by
      simp [muxHandleFunc, hp1]
    have hunf : registerAll ((p1, h1) :: rest) (some mx)
        = registerAll rest (muxHandleFunc mx p1 h1) := rfl
    rw [hunf, hstep]
    simp only [List.map_cons, List.nodup_cons] at hnd
    have hdisj2 : ∀ p ∈ rest.map Prod.fst,
        p ∉ (mx ++ [(p1, h1)]).map Prod.fst := by
      intro p hp
      have hx : p ∉ mx.map Prod.fst := hdisj p (by simp [hp])
      have hy : p ≠ p1 := fun he => hnd.1 (he ▸ hp)
      simp [hx, hy]
    rw [ih (mx ++ [(p1, h1)]) hdisj2 hnd.2]
    simp

theorem registerAll_keys :
    ∀ (routes : List (String × RouteHandler))
      (mx my : List (String × RouteHandler)),
      registerAll routes (some mx) = some my →
      ∀ p : String, (p ∈ mx.map Prod.fst ∨ p ∈ routes.map Prod.fst) →
        p ∈ my.map Prod.fst := by
  intro routes
  induction routes with
  | nil =>
    intro mx my h p hp
    obtain rfl : mx = my := Option.some.inj h
    rcases hp with h1 | h1
    · exact h1
    · simp at h1
  | cons pr rest ih =>
    intro mx my h p hp
    obtain ⟨p1, h1⟩ := pr
    have hunf : registerAll ((p1, h1) :: rest) (some mx)
        = registerAll rest (muxHandleFunc mx p1 h1) := rfl
    rw [hunf] at h
    by_cases hmem : p1 ∈ mx.map Prod.fst
    · rw [show muxHandleFunc mx p1 h1 = none from by simp [muxHandleFunc, hmem],
        registerAll_none] at h
      exact Option.noConfusion h
    · rw [show muxHandleFunc mx p1 h1 = some (mx ++ [(p1, h1)]) from by
        simp [muxHandleFunc, hmem]] at h
      refine ih (mx ++ [(p1, h1)]) my h p ?_
      rcases hp with h2 | h2
      · left
        simp [h2]
      · simp only [List.map_cons, List.mem_cons] at h2
        rcases h2 with h2 | h2
        · left
          simp [h2]
        · right
          exact h2

/-- Claim C8 (counterexample): a caller that explicitly registers a route
at "/health" does not get a succeeding construction with its handler
overriding the default — `CreateRoutes` registers the default last and the
duplicate registration panics (modelled as `none`). -/
theorem c8_health_override_cex :
    createRoutes [("/health", .user 0)] = none := rfl

/-- Claim C8 (corrected): route construction installs the default /health
handler (whose response commits the implicit status 200 with a plain-text
status line) for every Routes map WITHOUT an explicit "/health" entry; if
the caller registers "/health" explicitly, construction panics on the
duplicate registration instead of succeeding with the caller's handler. -/
theorem c8_health_default_amended :
    (∀ routes : List (String × RouteHandler),
      "/health" ∉ routes.map Prod.fst →
      (routes.map Prod.fst).Nodup →
      createRoutes routes
        = some (routes ++ [("/health", .defaultHealth)])) ∧
    (∀ routes : List (String × RouteHandler),
      "/health" ∈ routes.map Prod.fst →
      createRoutes routes = none) ∧
    (runHandler healthHandlerWrites { statusCode := 200 }).statusCode
      = 200 := by
  refine ⟨?_, ?_, rfl⟩
  · intro routes hnot hnd
    have hreg := registerAll_ok routes [] (by intro p hp; simp) hnd
    simp only [createRoutes]
    rw [hreg]
    simp [muxHandleFunc, hnot]
  · intro routes hmem
    simp only [createRoutes]
    cases hr : registerAll routes (some []) with
    | none => rfl
    | some my =>
      have hin : "/health" ∈ my.map Prod.fst :=
        registerAll_keys routes [] my hr "/health" (Or.inr hmem)
      simp [muxHandleFunc, hin]

theorem c8_witness :
    createRoutes [("/foo", .user 0)]
      = some [("/foo", .user 0), ("/health", .defaultHealth)] :=
  c8_health_default_amended.1 [("/foo", RouteHandler.user 0)]
    (by decide) (by decide)
